import Mathlib

/-!
Shallow embedding of the CHIP-8 interpreter core (`chip8_core/src/lib.rs`)
and verification of its specification claims.

Modelling conventions:
* Machine integers (`u8`, `u16`) become `Nat`, with `% 256` (resp. explicit
  bounds hypotheses) wherever the Rust code relies on wraparound or width.
* Fixed Rust arrays become Lean `List`s; the constructor always builds them
  at their declared length.
* A Rust panic (`unimplemented!`, index out of bounds, integer underflow)
  becomes `none` in an `Option` result.
* The Rust `match` in `execute` is first-match-wins; its third arm is the
  wildcard `(_, _, _, _) => unimplemented!(..)`, placed *before* the arms
  for Return, Jump, Call, the skips and the 8XY_ register operations.  The
  embedding renders the arm list as an `if`-chain in the exact source
  order, with the wildcard arm as the always-taken `if True` branch, so the
  later arms are unreachable here exactly as they are in the source.
-/

def SCREEN_WIDTH : Nat := 64

def SCREEN_HEIGHT : Nat := 32

def RAM_SIZE : Nat := 4096

def NUM_REGS : Nat := 16

def STACK_SIZE : Nat := 16

def NUM_KEYS : Nat := 16

def FONTSET_SIZE : Nat := 80

/-- The built-in 16-character sprite table, 5 bytes per character. -/
def FONTSET : List Nat :=
  [0xF0, 0x90, 0x90, 0x90, 0xF0,
   0x20, 0x60, 0x20, 0x20, 0x70,
   0xF0, 0x10, 0xF0, 0x80, 0xF0,
   0xF0, 0x10, 0xF0, 0x10, 0xF0,
   0x90, 0x90, 0xF0, 0x10, 0x10,
   0xF0, 0x80, 0xF0, 0x10, 0xF0,
   0xF0, 0x80, 0xF0, 0x90, 0xF0,
   0xF0, 0x10, 0x20, 0x40, 0x40,
   0xF0, 0x90, 0xF0, 0x90, 0xF0,
   0xF0, 0x90, 0xF0, 0x10, 0xF0,
   0xF0, 0x90, 0xF0, 0x90, 0x90,
   0xE0, 0x90, 0xE0, 0x90, 0xE0,
   0xF0, 0x80, 0x80, 0x80, 0xF0,
   0xE0, 0x90, 0x90, 0x90, 0xE0,
   0xF0, 0x80, 0xF0, 0x80, 0xF0,
   0xF0, 0x80, 0xF0, 0x80, 0x80]

def START_ADDR : Nat := 0x200

/-- The machine state, field for field the Rust `struct Emu`. -/
structure Emu where
  pc : Nat
  ram : List Nat
  screen : List Bool
  v_reg : List Nat
  i_reg : Nat
  sp : Nat
  stack : List Nat
  keys : List Bool
  dt : Nat
  st : Nat
deriving DecidableEq

/-- `ram[..FONTSET_SIZE].copy_from_slice(&FONTSET)`: overwrite the first
`FONTSET_SIZE` bytes of `ram` with the font table. -/
def copyFontset (ram : List Nat) : List Nat :=
  FONTSET ++ ram.drop FONTSET_SIZE

/-- `Emu::new`: all fields zeroed except `pc = START_ADDR`, then the font
table is copied into the low bytes of RAM. -/
def Emu.new : Emu :=
  { pc := START_ADDR
    ram := copyFontset (List.replicate RAM_SIZE 0)
    screen := List.replicate (SCREEN_WIDTH * SCREEN_HEIGHT) false
    v_reg := List.replicate NUM_REGS 0
    i_reg := 0
    sp := 0
    stack := List.replicate STACK_SIZE 0
    keys := List.replicate NUM_KEYS false
    dt := 0
    st := 0 }

/-- `Emu::push`: `stack[sp] = val; sp += 1`.  The indexing panics when
`sp` is not below the stack length, rendered as `none`. -/
def Emu.push (e : Emu) (val : Nat) : Option Emu :=
  if e.sp < e.stack.length then
    some { e with stack := e.stack.set e.sp val, sp := e.sp + 1 }
  else
    none

/-- `Emu::pop`: `sp -= 1; stack[sp]`.  When `sp = 0` the `u16` subtraction
underflows (a panic in debug builds, a wild index in release builds), so
the result is `none`; the returned value is paired with the new state. -/
def Emu.pop (e : Emu) : Option (Nat × Emu) :=
  if e.sp = 0 then
    none
  else
    match e.stack[e.sp - 1]? with
    | some v => some (v, { e with sp := e.sp - 1 })
    | none => none

/-- `Emu::reset`: reassigns every field to its construction-time value and
copies the font table back in.  The argument is otherwise unused, exactly
as in the source, which overwrites all ten fields. -/
def Emu.reset (_e : Emu) : Emu :=
  { pc := START_ADDR
    ram := copyFontset (List.replicate RAM_SIZE 0)
    screen := List.replicate (SCREEN_WIDTH * SCREEN_HEIGHT) false
    v_reg := List.replicate NUM_REGS 0
    i_reg := 0
    sp := 0
    stack := List.replicate STACK_SIZE 0
    keys := List.replicate NUM_KEYS false
    dt := 0
    st := 0 }

/-- `Emu::execute`: decode `op` into four nibbles and dispatch.  The arms
appear in the exact source order; the third alternative is the source's
wildcard `unimplemented!` arm, so every alternative after it is dead code,
as in the source's first-match-wins `match`. -/
def Emu.execute (e : Emu) (op : Nat) : Option Emu :=
  let digit1 := (op &&& 0xF000) >>> 12
  let digit2 := (op &&& 0x0F00) >>> 8
  let digit3 := (op &&& 0x00F0) >>> 4
  let digit4 := op &&& 0x000F
  if digit1 = 0 ∧ digit2 = 0 ∧ digit3 = 0 ∧ digit4 = 0 then
    some e
  else if digit1 = 0 ∧ digit2 = 0 ∧ digit3 = 0xE ∧ digit4 = 0 then
    some { e with screen := List.replicate (SCREEN_WIDTH * SCREEN_HEIGHT) false }
  else if True then
    none
  else if digit1 = 0 ∧ digit2 = 0 ∧ digit3 = 0xE ∧ digit4 = 0xE then
    match e.pop with
    | some (ret_addr, e1) => some { e1 with pc := ret_addr }
    | none => none
  else if digit1 = 1 then
    some { e with pc := op &&& 0xFFF }
  else if digit1 = 2 then
    match e.push e.pc with
    | some e1 => some { e1 with pc := op &&& 0xFFF }
    | none => none
  else if digit1 = 3 then
    if e.v_reg.getD digit2 0 = op &&& 0xFF then
      some { e with pc := e.pc + 2 }
    else
      some e
  else if digit1 = 4 then
    if e.v_reg.getD digit2 0 ≠ op &&& 0xFF then
      some { e with pc := e.pc + 2 }
    else
      some e
  else if digit1 = 5 ∧ digit4 = 0 then
    if e.v_reg.getD digit2 0 = e.v_reg.getD digit3 0 then
      some { e with pc := e.pc + 2 }
    else
      some e
  else if digit1 = 6 then
    some { e with v_reg := e.v_reg.set digit2 (op &&& 0xFF) }
  else if digit1 = 7 then
    some { e with v_reg := e.v_reg.set digit2 ((e.v_reg.getD digit2 0 + (op &&& 0xFF)) % 256) }
  else if digit1 = 8 ∧ digit4 = 0 then
    some { e with v_reg := e.v_reg.set digit2 (e.v_reg.getD digit3 0) }
  else if digit1 = 8 ∧ digit4 = 1 then
    some e
  else if digit1 = 8 ∧ digit4 = 2 then
    some { e with v_reg := e.v_reg.set digit2 (e.v_reg.getD digit2 0 &&& e.v_reg.getD digit3 0) }
  else if digit1 = 8 ∧ digit4 = 3 then
    some { e with v_reg := e.v_reg.set digit2 (e.v_reg.getD digit2 0 ^^^ e.v_reg.getD digit3 0) }
  else if digit1 = 8 ∧ digit4 = 4 then
    let new_vx := (e.v_reg.getD digit2 0 + e.v_reg.getD digit3 0) % 256
    let new_vf := if 255 < e.v_reg.getD digit2 0 + e.v_reg.getD digit3 0 then 1 else 0
    some { e with v_reg := (e.v_reg.set digit2 new_vx).set 0xF new_vf }
  else
    none

/-- `Emu::fetch`: read the big-endian 16-bit word at `pc`, advance `pc`
by 2.  An out-of-range index is a panic, rendered as `none`. -/
def Emu.fetch (e : Emu) : Option (Nat × Emu) :=
  match e.ram[e.pc]?, e.ram[e.pc + 1]? with
  | some higher_byte, some lower_byte =>
      some ((higher_byte <<< 8) ||| lower_byte, { e with pc := e.pc + 2 })
  | _, _ => none

/-- `Emu::tick`: fetch one instruction word and execute it. -/
def Emu.tick (e : Emu) : Option Emu :=
  match e.fetch with
  | some (op, e1) => e1.execute op
  | none => none

/-- `Emu::tick_timers`: decrement each timer when it is positive.  The
sound-timer `== 1` test guards only a comment in the source (the tone
side effect), so it has no state effect here. -/
def Emu.tick_timers (e : Emu) : Emu :=
  let e1 := if e.dt > 0 then { e with dt := e.dt - 1 } else e
  if e1.st > 0 then { e1 with st := e1.st - 1 } else e1

/-! ### Helper lemmas -/

theorem and_shiftRight_distrib (x y n : Nat) :
    (x &&& y) >>> n = (x >>> n) &&& (y >>> n) := by
  apply Nat.eq_of_testBit_eq
  intro i
  simp [Nat.testBit_shiftRight, Nat.testBit_and]

theorem digit4_eq (op : Nat) : op &&& 0x000F = op % 16 := by
  have h : (0x000F : Nat) = 2 ^ 4 - 1 := by decide
  rw [h, Nat.and_pow_two_sub_one_eq_mod]

theorem digit3_eq (op : Nat) : (op &&& 0x00F0) >>> 4 = op / 16 % 16 := by
  rw [and_shiftRight_distrib]
  have h : (0x00F0 : Nat) >>> 4 = 2 ^ 4 - 1 := by decide
  rw [h, Nat.and_pow_two_sub_one_eq_mod, Nat.shiftRight_eq_div_pow]

theorem digit2_eq (op : Nat) : (op &&& 0x0F00) >>> 8 = op / 256 % 16 := by
  rw [and_shiftRight_distrib]
  have h : (0x0F00 : Nat) >>> 8 = 2 ^ 4 - 1 := by decide
  rw [h, Nat.and_pow_two_sub_one_eq_mod, Nat.shiftRight_eq_div_pow]

theorem digit1_eq (op : Nat) : (op &&& 0xF000) >>> 12 = op / 4096 % 16 := by
  rw [and_shiftRight_distrib]
  have h : (0xF000 : Nat) >>> 12 = 2 ^ 4 - 1 := by decide
  rw [h, Nat.and_pow_two_sub_one_eq_mod, Nat.shiftRight_eq_div_pow]

theorem fetch_eq_of_lt (e : Emu) (h : e.pc + 1 < e.ram.length) :
    e.fetch = some (((e.ram.getD e.pc 0) <<< 8) ||| e.ram.getD (e.pc + 1) 0,
      { e with pc := e.pc + 2 }) := by
  have h0 : e.pc < e.ram.length := Nat.lt_of_succ_lt h
  unfold Emu.fetch
  rw [List.getElem?_eq_getElem h0, List.getElem?_eq_getElem h,
    List.getD_eq_getElem _ _ h0, List.getD_eq_getElem _ _ h]

theorem fontset_length : FONTSET.length = FONTSET_SIZE := rfl

theorem copyFontset_length (ram : List Nat) (h : ram.length = RAM_SIZE) :
    (copyFontset ram).length = RAM_SIZE := by
  rw [copyFontset, List.length_append, List.length_drop, fontset_length, h]
  decide

theorem new_ram_length : Emu.new.ram.length = RAM_SIZE := by
  show (copyFontset (List.replicate RAM_SIZE 0)).length = RAM_SIZE
  exact copyFontset_length _ (List.length_replicate _ _)

theorem copyFontset_take (ram : List Nat) :
    (copyFontset ram).take FONTSET_SIZE = FONTSET := by
  rw [copyFontset, ← fontset_length, List.take_left]

theorem execute_fallback (e : Emu) (op : Nat)
    (hop : op < 65536) (h0 : op ≠ 0x0000) (hE0 : op ≠ 0x00E0) :
    e.execute op = none := by
  have c1 : ¬(op / 4096 % 16 = 0 ∧ op / 256 % 16 = 0 ∧
      op / 16 % 16 = 0 ∧ op % 16 = 0) := by
    rintro ⟨a, b, c, d⟩
    exact h0 (by omega)
  have c2 : ¬(op / 4096 % 16 = 0 ∧ op / 256 % 16 = 0 ∧
      op / 16 % 16 = 0xE ∧ op % 16 = 0) := by
    rintro ⟨a, b, c, d⟩
    exact hE0 (by omega)
  unfold Emu.execute
  simp only [digit1_eq, digit2_eq, digit3_eq, digit4_eq]
  rw [if_neg c1, if_neg c2]
  simp

/-- RAM of the fresh machine reads 0 at every index past the font table. -/
theorem new_ram_getD (i : Nat) (h1 : FONTSET_SIZE ≤ i) :
    Emu.new.ram.getD i 0 = 0 := by
  show (copyFontset (List.replicate RAM_SIZE 0)).getD i 0 = 0
  rw [copyFontset, List.drop_replicate, List.getD_eq_getElem?_getD,
    List.getElem?_append_right (le_trans (le_of_eq fontset_length) h1),
    List.getElem?_replicate]
  split <;> rfl

/-! ### Claim theorems -/

/-- C1: In `Emu.execute`, the wildcard unimplemented-opcode arm is the
third alternative, placed before the alternatives for Return, Jump, Call,
the skips, the load/add immediates and the 8XY_ register operations, so in
first-match-wins dispatch every 16-bit instruction word other than
`0x0000` and `0x00E0` reaches that fallback and aborts (`none`); the later
alternatives are never reached. -/
theorem execute_catchAll_panics (e : Emu) (op : Nat)
    (hop : op < 65536) (h0 : op ≠ 0x0000) (hE0 : op ≠ 0x00E0) :
    e.execute op = none :=
  execute_fallback e op hop h0 hE0

/-- Witness for C1 at the concrete instruction word `0x1234` (a Jump). -/
theorem execute_catchAll_panics_witness :
    (0x1234 : Nat) < 65536 ∧ (0x1234 : Nat) ≠ 0x0000 ∧ (0x1234 : Nat) ≠ 0x00E0 ∧
      Emu.new.execute 0x1234 = none :=
  ⟨by decide, by decide, by decide,
    execute_catchAll_panics Emu.new 0x1234 (by decide) (by decide) (by decide)⟩

/-- C2: when `pc` and `pc + 1` are valid RAM indices, `fetch` returns the
word `(ram[pc] <<< 8) ||| ram[pc + 1]` and the state with only `pc`
changed, to its prior value plus 2. -/
theorem fetch_returns_word_and_advances (e : Emu) (h : e.pc + 1 < e.ram.length) :
    e.fetch = some (((e.ram.getD e.pc 0) <<< 8) ||| e.ram.getD (e.pc + 1) 0,
      { e with pc := e.pc + 2 }) :=
  fetch_eq_of_lt e h

/-- Witness for C2 on the freshly constructed machine. -/
theorem fetch_returns_word_and_advances_witness :
    Emu.new.pc + 1 < Emu.new.ram.length ∧
      Emu.new.fetch = some (((Emu.new.ram.getD Emu.new.pc 0) <<< 8) |||
        Emu.new.ram.getD (Emu.new.pc + 1) 0, { Emu.new with pc := Emu.new.pc + 2 }) := by
  have h : Emu.new.pc + 1 < Emu.new.ram.length := by
    rw [new_ram_length]
    decide
  exact ⟨h, fetch_returns_word_and_advances Emu.new h⟩

/-- C3: `reset` rebuilds, field for field, exactly the state produced by
`new`, with the font table reinstalled in the first `FONTSET_SIZE` bytes
of RAM. -/
theorem reset_eq_new (e : Emu) :
    e.reset = Emu.new ∧ (e.reset).ram.take FONTSET_SIZE = FONTSET :=
  ⟨rfl, copyFontset_take (List.replicate RAM_SIZE 0)⟩

/-- C10: `tick_timers` decrements each timer by exactly 1 when it is
positive and leaves it at 0 when it is 0; expressed with truncated
subtraction, which is exactly saturation at 0 (so 5 becomes 4 and 0
stays 0, and neither timer ever wraps below 0). -/
theorem tick_timers_saturating (e : Emu) :
    (e.tick_timers).dt = e.dt - 1 ∧ (e.tick_timers).st = e.st - 1 := by
  unfold Emu.tick_timers
  by_cases h1 : e.dt > 0 <;> by_cases h2 : e.st > 0 <;>
    simp [h1, h2] <;> omega

/-- C4: after the clear-screen instruction `0x00E0` succeeds, every cell
of the 64x32 framebuffer reads back `false`, whatever it held before. -/
theorem execute_cls_clears (e e1 : Emu) (h : e.execute 0x00E0 = some e1)
    (i : Nat) (hi : i < SCREEN_WIDTH * SCREEN_HEIGHT) :
    e1.screen.getD i false = false := by
  have he : e.execute 0x00E0 =
      some { e with screen := List.replicate (SCREEN_WIDTH * SCREEN_HEIGHT) false } := rfl
  rw [he] at h
  injection h with h1
  subst h1
  simp [List.getD, List.getElem?_replicate, hi]

/-- The state reached by executing clear-screen on the fresh machine. -/
def cls_demo : Emu :=
  { Emu.new with screen := List.replicate (SCREEN_WIDTH * SCREEN_HEIGHT) false }

/-- Witness for C4: clear-screen on the fresh machine, cell 0. -/
theorem execute_cls_clears_witness :
    Emu.new.execute 0x00E0 = some cls_demo ∧ (0 : Nat) < SCREEN_WIDTH * SCREEN_HEIGHT ∧
      cls_demo.screen.getD 0 false = false :=
  ⟨rfl, by decide, execute_cls_clears Emu.new cls_demo rfl 0 (by decide)⟩

/-- C5: a tick that fetches the all-zero instruction word only advances
`pc` by 2 (the fetch increment); every other field is unchanged. -/
theorem tick_nop_advances_only (e : Emu) (h : e.pc + 1 < e.ram.length)
    (hb0 : e.ram.getD e.pc 0 = 0) (hb1 : e.ram.getD (e.pc + 1) 0 = 0) :
    e.tick = some { e with pc := e.pc + 2 } := by
  unfold Emu.tick
  rw [fetch_eq_of_lt e h, hb0, hb1]
  rfl

/-- Witness for C5: the fresh machine holds `0x00 0x00` at the entry
address, so its first tick only advances `pc` from 0x200 to 0x202. -/
theorem tick_nop_advances_only_witness :
    Emu.new.pc + 1 < Emu.new.ram.length ∧ Emu.new.ram.getD Emu.new.pc 0 = 0 ∧
      Emu.new.ram.getD (Emu.new.pc + 1) 0 = 0 ∧
      Emu.new.tick = some { Emu.new with pc := Emu.new.pc + 2 } := by
  have h : Emu.new.pc + 1 < Emu.new.ram.length := by
    rw [new_ram_length]
    decide
  have hb0 : Emu.new.ram.getD Emu.new.pc 0 = 0 := new_ram_getD Emu.new.pc (by decide)
  have hb1 : Emu.new.ram.getD (Emu.new.pc + 1) 0 = 0 :=
    new_ram_getD (Emu.new.pc + 1) (by decide)
  exact ⟨h, hb0, hb1, tick_nop_advances_only Emu.new h hb0 hb1⟩

/-- C6 failing input: the add-with-carry arm `8XY4` sits after the
wildcard unimplemented-opcode arm, so executing `0x8014` aborts instead
of adding register 1 into register 0 and setting the carry flag. -/
theorem execute_addCarry_aborts : Emu.new.execute 0x8014 = none := rfl

/-- The fresh machine with the skip-if-equal instruction `0x3000` stored
at the entry address. -/
def skip_demo : Emu :=
  { Emu.new with ram := Emu.new.ram.set START_ADDR 0x30 }

/-- C7 failing input: the skip arms `3XNN`/`4XNN`/`5XY0` sit after the
wildcard unimplemented-opcode arm, so a tick that fetches `0x3000` (whose
condition `V0 == 0x00` holds on the fresh machine) aborts instead of
advancing `pc` by 4. -/
theorem tick_skip_aborts : skip_demo.tick = none := by
  have hlt : START_ADDR < Emu.new.ram.length := by
    rw [new_ram_length]
    decide
  have h : skip_demo.pc + 1 < skip_demo.ram.length := by
    show START_ADDR + 1 < (Emu.new.ram.set START_ADDR 0x30).length
    rw [List.length_set, new_ram_length]
    decide
  have hb0 : skip_demo.ram.getD skip_demo.pc 0 = 0x30 := by
    show (Emu.new.ram.set START_ADDR 0x30).getD START_ADDR 0 = 0x30
    rw [List.getD_eq_getElem?_getD, List.getElem?_set_self hlt]
    rfl
  have hb1 : skip_demo.ram.getD (skip_demo.pc + 1) 0 = 0 := by
    show (Emu.new.ram.set START_ADDR 0x30).getD (START_ADDR + 1) 0 = 0
    rw [List.getD_eq_getElem?_getD, List.getElem?_set_ne (by decide),
      ← List.getD_eq_getElem?_getD]
    exact new_ram_getD (START_ADDR + 1) (by decide)
  unfold Emu.tick
  rw [fetch_eq_of_lt skip_demo h, hb0, hb1]
  exact execute_fallback _ _ (by decide) (by decide) (by decide)

/-- C8 failing input: the Call arm `2NNN` sits after the wildcard
unimplemented-opcode arm, so executing `0x2300` aborts immediately; a
call can therefore never be followed by a return that restores `pc`. -/
theorem execute_call_aborts : Emu.new.execute 0x2300 = none := rfl

/-- C9 failing input: the arm for `8XY1` sits after the wildcard
unimplemented-opcode arm, so executing `0x8011` aborts; moreover the arm
body itself only computes the comparison `v_reg[x] != v_reg[y]` and
discards it, so even if it were reachable it would leave register X
unchanged rather than assign the bitwise OR. -/
theorem execute_or_aborts : Emu.new.execute 0x8011 = none := rfl
